import Mathlib

/-!
A shallow embedding of `opentargets/conn.py` (the Open Targets REST client
core): the response envelope, the schema validator, the request engine's
retry loop, and the paginating cursor `IterableResult`, together with
theorems settling the specification's claims about them.

Machine-level conventions: Python integers are unbounded, so they are
modelled by `Int`/`Nat`; fallible Python code (raising exceptions) is
modelled by `Except PyError`; mutable objects are modelled by explicit
state passing.
-/

/-- A Python runtime value, to the extent the client inspects values:
strings, booleans, integers and floats.  Floats are carried by their
integral value (only the runtime type tag and, for `info.total`, the
`int(...)` coercion result matter to the client). -/
inductive PyVal where
  | vStr (s : String)
  | vBool (b : Bool)
  | vInt (n : Int)
  | vFloat (n : Int)
  deriving DecidableEq

/-- The Python exceptions the modelled code can raise.  The
`AttributeError` raised by `Connection.validate_parameter` carries the
endpoint, the parameter name and the offending value (conn.py 276 formats
exactly these three into the message). -/
inductive PyError where
  | keyError
  | typeError
  | valueError
  | indexError
  | invalidParameter (endpoint filter_type : String) (value : PyVal)
  deriving DecidableEq

instance {ε α : Type} [DecidableEq ε] [DecidableEq α] : DecidableEq (Except ε α) := fun x y =>
  match x, y with
  | .ok a, .ok b =>
    if h : a = b then .isTrue (by rw [h]) else .isFalse (fun hh => h (by cases hh; rfl))
  | .error e, .error f =>
    if h : e = f then .isTrue (by rw [h]) else .isFalse (fun hh => h (by cases hh; rfl))
  | .ok _, .error _ => .isFalse (fun hh => by cases hh)
  | .error _, .ok _ => .isFalse (fun hh => by cases hh)

/-- Parse an unsigned decimal numeral, Python style (every character must
be a digit). -/
def parseDigits : List Char → Nat → Option Nat
  | [], acc => some acc
  | c :: cs, acc =>
    if c.isDigit then parseDigits cs (acc * 10 + (c.toNat - 48)) else none

/-- Python `int(s)` on a string: an optional sign followed by at least one
digit; anything else raises `ValueError`. -/
def pyStrToInt (s : String) : Option Int :=
  match s.data with
  | '-' :: cs => if cs.isEmpty then none else (parseDigits cs 0).map (fun n => -(n : Int))
  | '+' :: cs => if cs.isEmpty then none else (parseDigits cs 0).map (fun n => (n : Int))
  | cs => if cs.isEmpty then none else (parseDigits cs 0).map (fun n => (n : Int))

/-- Lookup in a Python dict modelled as an association list (first match
wins; the model never constructs duplicate keys from dict operations). -/
def dictGet {κ β : Type} [DecidableEq κ] (k : κ) : List (κ × β) → Option β
  | [] => none
  | (k', v) :: rest => if k' = k then some v else dictGet k rest

/-- Python dict assignment `d[k] = v`: overwrite the existing binding in
place, else append a new binding. -/
def dictSet {κ β : Type} [DecidableEq κ] (k : κ) (v : β) : List (κ × β) → List (κ × β)
  | [] => [(k, v)]
  | (k', v') :: rest =>
    if k' = k then (k, v) :: rest else (k', v') :: dictSet k v rest

/-- `isinstance(value, str)`. -/
def isinstanceStr : PyVal → Bool
  | .vStr _ => true
  | _ => false

/-- `isinstance(value, bool)`. -/
def isinstanceBool : PyVal → Bool
  | .vBool _ => true
  | _ => false

/-- `isinstance(value, (int, float))`.  In Python `bool` is a subclass of
`int`, so boolean values satisfy this check as well. -/
def isinstanceIntFloat : PyVal → Bool
  | .vBool _ => true
  | .vInt _ => true
  | .vFloat _ => true
  | _ => false

/-- Python `int(x)` as applied to `info.total`: succeeds on integers, on
floats (truncating; the model carries the integral value directly), on
booleans (`int(True) = 1`) and on strings that parse as an integer; raises
(`ValueError`/`TypeError`), i.e. `none`, otherwise. -/
def tryInt : PyVal → Option Int
  | .vInt n => some n
  | .vFloat n => some n
  | .vBool b => some (if b then 1 else 0)
  | .vStr s => pyStrToInt s

/-- The schema index `Connection.endpoint_validation_data` built by
`_get_remote_api_specs` (conn.py 242-259): endpoint path → HTTP method →
parameter name → declared type tag. -/
abbrev SchemaIndex := List (String × List (String × List (String × String)))

/-- `Connection.validate_parameter` (conn.py 266-276).  The two leading
subscripts raise `KeyError` when the endpoint or the method is missing from
the schema index.  Then, if the parameter is declared, exactly one of the
three type branches must fire for the function to return silently;
otherwise it raises the invalid-parameter `AttributeError`. -/
def validate_parameter (idx : SchemaIndex) (endpoint filter_type : String)
    (value : PyVal) (method : String := "get") : Except PyError Unit :=
  match dictGet endpoint idx with
  | none => .error .keyError
  | some byMethod =>
    match dictGet method byMethod with
    | none => .error .keyError
    | some endpoint_data =>
      match dictGet filter_type endpoint_data with
      | some ty =>
        if ty = "string" ∧ isinstanceStr value then .ok ()
        else if ty = "boolean" ∧ isinstanceBool value then .ok ()
        else if ty = "number" ∧ isinstanceIntFloat value then .ok ()
        else .error (.invalidParameter endpoint filter_type value)
      | none => .error (.invalidParameter endpoint filter_type value)

/-- Modelled from the spec: "succeed silently if the value's runtime type
matches the declared type (string/boolean/number, number covering both
integer and floating forms)".  The value's runtime type here is its actual
Python class: a boolean value has runtime type `bool`, not `int`. -/
def specTypeMatches (ty : String) : PyVal → Bool
  | .vStr _ => ty = "string"
  | .vBool _ => ty = "boolean"
  | .vInt _ => ty = "number"
  | .vFloat _ => ty = "number"

/-- The parsed body of an API response as far as the claims need it: the
optional `info.total` field (absent both when the parsed JSON object had no
`total` key and when the body was not an object, in which case `info` is
`{}` and attribute access raises), and the `data` payload. -/
structure RespBody (α : Type) where
  total? : Option PyVal
  data : List α
  deriving DecidableEq

/-- `Response.__len__` (conn.py 103-107): return `self.info.total` as is;
the bare `except` fires only when the attribute lookup raises (field
absent), in which case `len(self.data)` is returned.  No coercion of a
present `total` is attempted. -/
def Response.len {α : Type} (r : RespBody α) : PyVal :=
  match r.total? with
  | some v => v
  | none => .vInt r.data.length

/-- The builtin `len()` applied on top of `Response.__len__`: the value the
dunder returns must be a nonnegative integer, else `len` itself raises
(`TypeError` for a non-integer, `ValueError` for a negative one). -/
def builtinLen {α : Type} (r : RespBody α) : Except PyError Int :=
  match Response.len r with
  | .vInt n => if n < 0 then .error .valueError else .ok n
  | _ => .error .typeError

/-- Modelled from the spec: "length = `info.total` if present and coercible
to an integer, else falls back to length of `data`". -/
def specLen {α : Type} (r : RespBody α) : Int :=
  match r.total?.bind tryInt with
  | some n => n
  | none => r.data.length

/-- A response header key: the string or the byte-string spelling of a
header name (conn.py 76-85 checks both variants). -/
inductive HKey where
  | s (name : String)
  | b (name : String)
  deriving DecidableEq

/-- Response headers relevant to usage metering, with their values already
`int(...)`-coerced (the headers carry decimal strings). -/
abbrev Headers := List (HKey × Int)

/-- The `UsageInfo` namedtuple built by `Response._parse_usage_data`. -/
structure UsageInfo where
  limitHour : Int
  limit10s : Int
  remainingHour : Int
  remaining10s : Int
  minimum : Int
  exceeded : Bool
  deriving DecidableEq

/-- `Response._parse_usage_data` (conn.py 75-102): pick the string or the
byte-string spelling of the `X-Usage-*` header names depending on which
variant of `X-Usage-Limit-1h` is present; with neither present set
`usage = None` and return.  Otherwise read the four headers (a missing one
raises `KeyError`), set `minimum` to the smaller remaining count and
`exceeded` to whether it is negative. -/
def parse_usage_data (h : Headers) : Except PyError (Option UsageInfo) :=
  let build : (String → HKey) → Except PyError (Option UsageInfo) := fun k =>
    match dictGet (k "X-Usage-Limit-1h") h, dictGet (k "X-Usage-Limit-10s") h,
          dictGet (k "X-Usage-Remaining-1h") h, dictGet (k "X-Usage-Remaining-10s") h with
    | some l1, some l2, some r1, some r2 =>
      .ok (some { limitHour := l1, limit10s := l2, remainingHour := r1,
                  remaining10s := r2, minimum := min r1 r2,
                  exceeded := decide (min r1 r2 < 0) })
    | _, _, _, _ => .error .keyError
  if (dictGet (HKey.s "X-Usage-Limit-1h") h).isSome then build HKey.s
  else if (dictGet (HKey.b "X-Usage-Limit-1h") h).isSome then build HKey.b
  else .ok none

/-- An HTTP response as seen by the retry loop of `_make_request`: the
status code and the already-parsed optional `Retry-After` header value in
seconds. -/
structure HResp where
  status : Nat
  retryAfter : Option Int
  deriving DecidableEq

/-- The observable side effect of one round of the retry loop: sleeping
before retrying after a 429, or refreshing the token after a 419. -/
inductive RetryAction where
  | sleep (seconds : Int)
  | refreshToken
  deriving DecidableEq

/-- A status code on which the retry loop of `_make_request` keeps going
(conn.py 212): 429 (rate limited) or 419 (token expired). -/
def retryStatus (r : HResp) : Prop := r.status = 429 ∨ r.status = 419

instance (r : HResp) : Decidable (retryStatus r) := by
  unfold retryStatus; infer_instance

/-- The retry loop of `Connection._make_request` (conn.py 209-222) in the
default `rate_limit_fail = False` mode.  `resp i` is the response returned
by the `i`-th HTTP attempt; the loop keeps calling while the status is 429
or 419, sleeping for the `Retry-After` duration (default 1 second) on a 429
and refreshing the token on a 419.  The Python loop is unbounded, so the
model is fueled: `none` means the loop is still running after `fuel`
attempts.  The result carries the retry actions taken, the response that
left the loop, and the number of HTTP attempts made. -/
def retryLoop (resp : Nat → HResp) : Nat → Nat → Option (List RetryAction × HResp × Nat)
  | 0, _ => none
  | fuel + 1, i =>
    let r := resp i
    if r.status = 429 then
      match retryLoop resp fuel (i + 1) with
      | some (acts, out, n) => some (.sleep (r.retryAfter.getD 1) :: acts, out, n + 1)
      | none => none
    else if r.status = 419 then
      match retryLoop resp fuel (i + 1) with
      | some (acts, out, n) => some (.refreshToken :: acts, out, n + 1)
      | none => none
    else some ([], r, 1)

/-- The attempt structure of `Connection._make_request` (conn.py 209-224):
with `rate_limit_fail` true a single attempt is made and its status is not
inspected by the loop; with it false the retry loop runs. -/
def make_request_attempts (rate_limit_fail : Bool) (resp : Nat → HResp) (fuel : Nat) :
    Option (List RetryAction × HResp × Nat) :=
  if rate_limit_fail then some ([], resp 0, 1)
  else retryLoop resp fuel 0

/-- `Connection._make_token_request` (conn.py 168-173) calls
`_make_request` without passing `rate_limit_fail`, so the token request
runs with the default `rate_limit_fail = False`, i.e. in retrying mode. -/
def make_token_request_attempts (resp : Nat → HResp) (fuel : Nat) :
    Option (List RetryAction × HResp × Nat) :=
  make_request_attempts false resp fuel

/-- The token-validation call of `Connection._update_token` (conn.py
230-232) likewise calls `_make_request` without passing `rate_limit_fail`,
so it also runs in the default retrying mode. -/
def update_token_validate_attempts (resp : Nat → HResp) (fuel : Nat) :
    Option (List RetryAction × HResp × Nat) :=
  make_request_attempts false resp fuel

/-- The actions the retry loop is specified to take while the first `k`
responses all have a retryable status: a sleep of the `Retry-After`
duration (default 1) for each 429, a token refresh for each 419. -/
def expectedRetryActions (resp : Nat → HResp) (k : Nat) : List RetryAction :=
  (List.range k).map fun i =>
    if (resp i).status = 429 then .sleep ((resp i).retryAfter.getD 1)
    else .refreshToken

/-- The total computed at cursor activation (conn.py 298-301):
`int(self.info.total)` if that succeeds, else `len(self._data)`.  Both an
absent `total` attribute and a failing `int(...)` coercion are caught by
the bare `except`. -/
def computeTotal {α : Type} (r : RespBody α) : Int :=
  match r.total?.bind tryInt with
  | some n => n
  | none => r.data.length

/-- The mutable state of an activated `IterableResult` (conn.py 282-364):
the endpoint (`self._args[0]`), the dict behind `self._kwargs['params']`,
the buffered page `self._data`, the consumed count `self.current` and the
declared `self.total`. -/
structure CursorState (α : Type) where
  endpoint : String
  params : List (String × PyVal)
  buf : List α
  current : Nat
  total : Int
  deriving DecidableEq

/-- `IterableResult.__call__` (conn.py 290-302): store the call arguments,
perform the underlying call, buffer its `data`, reset `current` to 0 and
compute `total`. -/
def activate {α : Type} (endpoint : String) (params : List (String × PyVal))
    (r : RespBody α) : CursorState α :=
  { endpoint := endpoint, params := params, buf := r.data, current := 0,
    total := computeTotal r }

/-- The external collaborator behind `IterableResult._make_call`: the
composite of the request engine and the response envelope, as a function
from the (mutated) params dict to the page it returns.  All other call
arguments are fixed for a given cursor. -/
abbrev Fetch (α : Type) := List (String × PyVal) → RespBody α

/-- The outcome of one `__next__` call: a yielded record (with the params
dict of the follow-up fetch, when one was issued, and the successor state),
a `StopIteration`, or the `IndexError` raised by `pop(0)` when a follow-up
fetch returned an empty page (the state mutations made before the raise are
kept). -/
inductive StepResult (α : Type) where
  | yield (record : α) (fetched : Option (List (String × PyVal))) (next : CursorState α)
  | stop
  | indexError (fetched : List (String × PyVal)) (after : CursorState α)
  deriving DecidableEq

/-- `IterableResult.__next__` (conn.py 324-333): if `current < total`,
re-fetch with `params['from'] = current` when the buffer is empty, then pop
the first buffered record and increment `current`; else raise
`StopIteration`. -/
def nextStep {α : Type} (fetch : Fetch α) (s : CursorState α) : StepResult α :=
  if (s.current : Int) < s.total then
    match s.buf with
    | d :: rest => .yield d none { s with buf := rest, current := s.current + 1 }
    | [] =>
      let p := dictSet "from" (.vInt s.current) s.params
      match (fetch p).data with
      | [] => .indexError p { s with params := p, buf := [] }
      | d :: rest =>
        .yield d (some p) { s with params := p, buf := rest, current := s.current + 1 }
  else .stop

/-- Run the iterator protocol on a cursor for at most `fuel` steps,
collecting the yielded records, the final state, and the params dicts of
the follow-up fetches issued along the way; stops early at `StopIteration`
or at an `IndexError`. -/
def drain {α : Type} (fetch : Fetch α) :
    Nat → CursorState α → List α × CursorState α × List (List (String × PyVal))
  | 0, s => ([], s, [])
  | fuel + 1, s =>
    match nextStep fetch s with
    | .yield d fetched s' =>
      let r := drain fetch fuel s'
      (d :: r.1, r.2.1, fetched.toList ++ r.2.2)
    | .stop => ([], s, [])
    | .indexError p s' => ([], s', [p])

/-- The not-yet-consumed records of a cursor: what draining it with exactly
the fuel it still needs yields. -/
def remainingList {α : Type} (fetch : Fetch α) (s : CursorState α) : List α :=
  (drain fetch (s.total - s.current).toNat s).1

/-- The consumption loop of `islice(self, x, None)` followed by
`next(…, None)`: drop `n` records, then return the next one, or `None` if
the iterator raises `StopIteration` first; an `IndexError` from `__next__`
propagates. -/
def advanceGet {α : Type} (fetch : Fetch α) : Nat → CursorState α → Except PyError (Option α)
  | 0, s =>
    match nextStep fetch s with
    | .yield d _ _ => .ok (some d)
    | .stop => .ok none
    | .indexError _ _ => .error .indexError
  | n + 1, s =>
    match nextStep fetch s with
    | .yield _ _ s' => advanceGet fetch n s'
    | .stop => .ok none
    | .indexError _ _ => .error .indexError

/-- `IterableResult.__getitem__` (conn.py 357-361) on an integer index:
`next(islice(self, x, None), None)`.  `islice` raises `ValueError` on a
negative index; otherwise it consumes `x` records and the final `next`
returns the following one, or `None` when the iterator is exhausted. -/
def getItem {α : Type} (fetch : Fetch α) (s : CursorState α) (x : Int) :
    Except PyError (Option α) :=
  if x < 0 then .error .valueError
  else advanceGet fetch x.toNat s

/-- The server honours pagination for a cursor whose activation params were
`p0` and whose total is `t`: every follow-up fetch at an offset still below
`t` returns a non-empty page. -/
def sanePages {α : Type} (fetch : Fetch α) (p0 : List (String × PyVal)) (t : Int) : Prop :=
  ∀ n : Nat, (n : Int) < t → (fetch (dictSet "from" (.vInt n) p0)).data ≠ []

/-- The shapes the params dict of an iterating cursor can take: either the
activation params, or those with the `from` offset overwritten. -/
def paramsReachable (p0 p : List (String × PyVal)) : Prop :=
  p = p0 ∨ ∃ k : Nat, p = dictSet "from" (.vInt k) p0

/-- The validate-then-merge loop of `IterableResult.filter` (conn.py
306-308): validate each filter against the stored endpoint (method
defaulting to `get`), merging the validated ones into the params dict; a
failing validation raises, keeping the merges made so far. -/
def mergeFilters (idx : SchemaIndex) (endpoint : String) :
    List (String × PyVal) → List (String × PyVal) →
    List (String × PyVal) × Option PyError
  | p, [] => (p, none)
  | p, (k, v) :: rest =>
    match validate_parameter idx endpoint k v "get" with
    | .ok _ => mergeFilters idx endpoint (dictSet k v p) rest
    | .error e => (p, some e)

/-- `IterableResult.filter` (conn.py 304-310): with no filters given,
return self unchanged; otherwise validate and merge each filter, then
re-invoke `__call__` from scratch on the merged params (`resp` being the
page that re-invocation fetches).  The returned state is the cursor itself
(`return self`); a validation error leaves the partial merges in place and
skips the re-invocation. -/
def filterStep {α : Type} (idx : SchemaIndex) (s : CursorState α)
    (kwargs : List (String × PyVal)) (resp : RespBody α) :
    CursorState α × Option PyError :=
  if kwargs.isEmpty then (s, none)
  else
    match mergeFilters idx s.endpoint s.params kwargs with
    | (p, none) => (activate s.endpoint p resp, none)
    | (p, some e) => ({ s with params := p }, some e)

/-- One operation on a live cursor, together with the page the environment
would serve it: a (re-)activation via `__call__`, a `filter` call, or one
`__next__` step. -/
inductive CursorOp (α : Type) where
  | callOp (params : List (String × PyVal)) (resp : RespBody α)
  | filterOp (kwargs : List (String × PyVal)) (resp : RespBody α)
  | nextOp (page : RespBody α)

/-- Apply one cursor operation, keeping the post-mutation state whether or
not the operation raised. -/
def applyOp {α : Type} (idx : SchemaIndex) (s : CursorState α) : CursorOp α → CursorState α
  | .callOp p r => activate s.endpoint p r
  | .filterOp kw r => (filterStep idx s kw r).1
  | .nextOp page =>
    match nextStep (fun _ => page) s with
    | .yield _ _ s' => s'
    | .stop => s
    | .indexError _ s' => s'

/-- An operation is served a sane response when the total its page reports
(or falls back to) is nonnegative; `__next__` pages carry no total. -/
def saneOp {α : Type} : CursorOp α → Prop
  | .callOp _ r => 0 ≤ computeTotal r
  | .filterOp _ r => 0 ≤ computeTotal r
  | .nextOp _ => True

/-- Lexicographic comparison of code-point lists, as Python compares
strings. -/
def lexLe : List Char → List Char → Bool
  | [], _ => true
  | _ :: _, [] => false
  | a :: as, b :: bs =>
    if a.toNat < b.toNat then true
    else if b.toNat < a.toNat then false
    else lexLe as bs

/-- Python string comparison `a <= b`: lexicographic on code points. -/
def strLeB (a b : String) : Bool := lexLe a.data b.data

/-- The `params` argument of `_make_request`: either a dict or a plain
sequence (of strings, the only shape the client sends). -/
inductive PyParams where
  | dict (items : List (String × PyVal))
  | seqOf (values : List String)
  deriving DecidableEq

/-- `sorted(params.items())` (conn.py 199).  Python sorts the item tuples
lexicographically; a dict's keys are pairwise distinct, so the tuple
comparison never reaches the values and coincides with sorting by key,
which is how it is modelled. -/
def canonicalizeDict (l : List (String × PyVal)) : List (String × PyVal) :=
  List.insertionSort (fun p q : String × PyVal => strLeB p.1 q.1 = true) l

/-- `sorted(params)` (conn.py 201), for a non-dict params sequence. -/
def canonicalizeSeq (l : List String) : List String :=
  List.insertionSort (fun a b : String => strLeB a b = true) l

/-- The params canonicalization of `_make_request` (conn.py 196-201):
sort a dict by key, any other sequence by value. -/
def canonicalizeParams : PyParams → PyParams
  | .dict l => .dict (canonicalizeDict l)
  | .seqOf l => .seqOf (canonicalizeSeq l)

instance {α : Type} (op : CursorOp α) : Decidable (saneOp op) := by
  cases op <;> (unfold saneOp; infer_instance)

/-- A server for the iteration examples: a fixed page regardless of
offset. -/
def constFetch : Fetch Nat := fun _ => ⟨none, [9]⟩

/-- A server for the random-access examples: no data on re-fetch (the
examples never re-fetch). -/
def emptyFetch : Fetch Nat := fun _ => ⟨none, []⟩

/-! ## Theorems -/

/-- Helper: `validate_parameter` never returns `.ok` through the error
branches; characterizes the successful runs. -/
theorem validate_parameter_ok_cases (idx : SchemaIndex) (endpoint name method : String)
    (value : PyVal) :
    validate_parameter idx endpoint name value method = .ok ()
      ↔ ∃ byMethod endpoint_data ty,
          dictGet endpoint idx = some byMethod
          ∧ dictGet method byMethod = some endpoint_data
          ∧ dictGet name endpoint_data = some ty
          ∧ ((ty = "string" ∧ isinstanceStr value = true)
             ∨ (ty = "boolean" ∧ isinstanceBool value = true)
             ∨ (ty = "number" ∧ isinstanceIntFloat value = true)) := by
  unfold validate_parameter
  cases h1 : dictGet endpoint idx with
  | none => simp [h1]
  | some byMethod =>
    cases h2 : dictGet method byMethod with
    | none => simp [h1, h2]
    | some endpoint_data =>
      cases h3 : dictGet name endpoint_data with
      | none => simp [h1, h2, h3]
      | some ty =>
        by_cases c1 : ty = "string" ∧ isinstanceStr value = true
        · simp [h1, h2, h3, c1]
        · by_cases c2 : ty = "boolean" ∧ isinstanceBool value = true
          · simp [h1, h2, h3, c1, c2]
          · by_cases c3 : ty = "number" ∧ isinstanceIntFloat value = true
            · simp [h1, h2, h3, c1, c2, c3]
            · simp [h1, h2, h3, c1, c2, c3]

/-- C5 (counterexample): the claim says validation returns silently only
when a `number`-typed parameter receives an integer or floating value, and
fails on every mismatched runtime type.  But in Python `bool` is a subclass
of `int`, so `isinstance(True, (int, float))` holds and
`validate_parameter` accepts a boolean value for a `number`-typed
parameter, although its runtime type matches none of the claim's cases. -/
theorem validate_parameter_bool_number_cex :
    validate_parameter [("/public/search", [("get", [("size", "number")])])]
      "/public/search" "size" (.vBool true) "get" = .ok ()
    ∧ specTypeMatches "number" (.vBool true) = false := by decide

/-- C5 (amended): `validate_parameter` returns silently exactly when the
schema index declares a type for `(endpoint, method, name)` and the value
passes the corresponding `isinstance` check — string with string values,
boolean with boolean values, number with integer, floating or (because
`bool` subclasses `int`) boolean values.  Whenever the endpoint and method
resolve in the index and validation does not return silently, it fails
with the invalid-parameter error naming the endpoint, the parameter and
the value, before any network call (the function makes none). -/
theorem validate_parameter_characterization (idx : SchemaIndex)
    (endpoint name method : String) (value : PyVal) :
    (validate_parameter idx endpoint name value method = .ok ()
      ↔ ∃ byMethod endpoint_data ty,
          dictGet endpoint idx = some byMethod
          ∧ dictGet method byMethod = some endpoint_data
          ∧ dictGet name endpoint_data = some ty
          ∧ ((ty = "string" ∧ isinstanceStr value = true)
             ∨ (ty = "boolean" ∧ isinstanceBool value = true)
             ∨ (ty = "number" ∧ isinstanceIntFloat value = true)))
    ∧ (∀ byMethod endpoint_data,
        dictGet endpoint idx = some byMethod →
        dictGet method byMethod = some endpoint_data →
        validate_parameter idx endpoint name value method ≠ .ok () →
        validate_parameter idx endpoint name value method
          = .error (.invalidParameter endpoint name value)) := by
  refine ⟨validate_parameter_ok_cases idx endpoint name method value, ?_⟩
  intro byMethod endpoint_data h1 h2 hne
  unfold validate_parameter at hne ⊢
  simp only [h1, h2] at hne ⊢
  cases h3 : dictGet name endpoint_data with
  | none => simp
  | some ty =>
    simp only [h3] at hne
    by_cases c1 : ty = "string" ∧ isinstanceStr value = true
    · exact absurd (by simp [c1]) hne
    · by_cases c2 : ty = "boolean" ∧ isinstanceBool value = true
      · exact absurd (by simp [c1, c2]) hne
      · by_cases c3 : ty = "number" ∧ isinstanceIntFloat value = true
        · exact absurd (by simp [c1, c2, c3]) hne
        · simp [c1, c2, c3]

/-- Witness for C5: a string-typed parameter given a boolean value fails
with the invalid-parameter error naming endpoint, parameter and value. -/
theorem validate_parameter_characterization_witness :
    validate_parameter [("/e", [("get", [("q", "string")])])] "/e" "q" (.vBool true) "get"
      = .error (.invalidParameter "/e" "q" (.vBool true)) :=
  (validate_parameter_characterization [("/e", [("get", [("q", "string")])])]
      "/e" "q" "get" (.vBool true)).2
    [("get", [("q", "string")])] [("q", "string")] (by decide) (by decide) (by decide)

/-- C7 (counterexample): a response whose `info.total` is the string `"7"`
— present and coercible to the integer 7, so the claim says its length is
7.  But `Response.__len__` returns `info.total` without any coercion, so
the length is the raw string and the builtin `len()` raises `TypeError`
instead of producing 7 (or falling back to `len(data) = 0`). -/
theorem response_len_cex :
    Response.len (⟨some (.vStr "7"), []⟩ : RespBody Nat) = .vStr "7"
    ∧ specLen (⟨some (.vStr "7"), []⟩ : RespBody Nat) = 7
    ∧ builtinLen (⟨some (.vStr "7"), []⟩ : RespBody Nat) = .error .typeError
    ∧ PyVal.vStr "7" ≠ .vInt 7 := by decide

/-- C7 (amended): a Response's length is `info.total` returned as is
whenever that field is present — no coercion is attempted, so `len()`
succeeds on it only when it already is a nonnegative integer — and falls
back to the length of the `data` payload exactly when the field is
absent. -/
theorem response_len_characterization {α : Type} (r : RespBody α) :
    (∀ v, r.total? = some v → Response.len r = v)
    ∧ (r.total? = none → Response.len r = .vInt r.data.length)
    ∧ (∀ n : Int, r.total? = some (.vInt n) → 0 ≤ n → builtinLen r = .ok n)
    ∧ (r.total? = none → builtinLen r = .ok r.data.length) := by
  refine ⟨?_, ?_, ?_, ?_⟩
  · intro v hv; simp [Response.len, hv]
  · intro hv; simp [Response.len, hv]
  · intro n hv hn
    simp only [builtinLen, Response.len, hv]
    rw [if_neg (by omega)]
  · intro hv
    simp only [builtinLen, Response.len, hv]
    rw [if_neg (by omega)]

/-- Witness for C7: an integer `total` of 12 is the length even when the
page holds fewer records, and an absent `total` falls back to the data
length. -/
theorem response_len_characterization_witness :
    builtinLen (⟨some (.vInt 12), [0, 1]⟩ : RespBody Nat) = .ok 12
    ∧ builtinLen (⟨none, [0, 1]⟩ : RespBody Nat) = .ok 2 :=
  ⟨(response_len_characterization (⟨some (.vInt 12), [0, 1]⟩ : RespBody Nat)).2.2.1
      12 rfl (by omega),
   ((response_len_characterization (⟨none, [0, 1]⟩ : RespBody Nat)).2.2.2 rfl).trans
      (by decide)⟩

/-- C9: when the four `X-Usage-*` headers are present in their string
variant the parsed usage has `exceeded` true exactly when the smaller of
the two remaining counts is negative (and parsing succeeds, the warning
being only logged); the same holds for the byte-string variant; and when
no `X-Usage-*` header is present at all, `usage` is `None` and parsing is
not an error. -/
theorem parse_usage_spec (h : Headers) :
    (∀ l1 l2 r1 r2 : Int,
      dictGet (HKey.s "X-Usage-Limit-1h") h = some l1 →
      dictGet (HKey.s "X-Usage-Limit-10s") h = some l2 →
      dictGet (HKey.s "X-Usage-Remaining-1h") h = some r1 →
      dictGet (HKey.s "X-Usage-Remaining-10s") h = some r2 →
      parse_usage_data h
          = .ok (some ⟨l1, l2, r1, r2, min r1 r2, decide (min r1 r2 < 0)⟩)
        ∧ (decide (min r1 r2 < 0) = true ↔ min r1 r2 < 0))
    ∧ (∀ l1 l2 r1 r2 : Int,
      dictGet (HKey.s "X-Usage-Limit-1h") h = none →
      dictGet (HKey.b "X-Usage-Limit-1h") h = some l1 →
      dictGet (HKey.b "X-Usage-Limit-10s") h = some l2 →
      dictGet (HKey.b "X-Usage-Remaining-1h") h = some r1 →
      dictGet (HKey.b "X-Usage-Remaining-10s") h = some r2 →
      parse_usage_data h
          = .ok (some ⟨l1, l2, r1, r2, min r1 r2, decide (min r1 r2 < 0)⟩))
    ∧ ((∀ name ∈ ["X-Usage-Limit-1h", "X-Usage-Limit-10s",
                  "X-Usage-Remaining-1h", "X-Usage-Remaining-10s"],
        dictGet (HKey.s name) h = none ∧ dictGet (HKey.b name) h = none) →
      parse_usage_data h = .ok none) := by
  refine ⟨?_, ?_, ?_⟩
  · intro l1 l2 r1 r2 h1 h2 h3 h4
    constructor
    · simp [parse_usage_data, h1, h2, h3, h4]
    · simp
  · intro l1 l2 r1 r2 h0 h1 h2 h3 h4
    simp [parse_usage_data, h0, h1, h2, h3, h4]
  · intro habs
    have h1 := habs "X-Usage-Limit-1h" (by simp)
    simp [parse_usage_data, h1.1, h1.2]

/-- Witness for C9: a concrete header set with 10-second remaining count
-1 parses with `exceeded = true`, and a header set with no `X-Usage-*`
header parses to no usage info. -/
theorem parse_usage_spec_witness :
    parse_usage_data [(HKey.s "X-Usage-Limit-1h", 100), (HKey.s "X-Usage-Limit-10s", 10),
        (HKey.s "X-Usage-Remaining-1h", 55), (HKey.s "X-Usage-Remaining-10s", -1)]
      = .ok (some ⟨100, 10, 55, -1, -1, true⟩)
    ∧ parse_usage_data [(HKey.s "Content-Type", 0)] = .ok none :=
  ⟨(((parse_usage_spec [(HKey.s "X-Usage-Limit-1h", 100), (HKey.s "X-Usage-Limit-10s", 10),
        (HKey.s "X-Usage-Remaining-1h", 55), (HKey.s "X-Usage-Remaining-10s", -1)]).1
      100 10 55 (-1) (by decide) (by decide) (by decide) (by decide)).1).trans (by decide),
   (parse_usage_spec [(HKey.s "Content-Type", 0)]).2.2 (by decide)⟩

/-- C6 (counterexample): the claim says the internal token operations run
in single-attempt mode.  But `_make_token_request` calls `_make_request`
without passing `rate_limit_fail`, so the token request runs with the
default retrying mode: served a 429 and then a 200, it makes two HTTP
attempts, not exactly one. -/
theorem token_request_not_single_attempt_cex :
    make_token_request_attempts (fun i => if i = 0 then ⟨429, some 0⟩ else ⟨200, none⟩) 5
      = some ([.sleep 0], ⟨200, none⟩, 2)
    ∧ (2 : Nat) ≠ 1 := by decide

/-- C6 (amended): when `rate_limit_fail` is true, `_make_request` performs
exactly one HTTP attempt with no retry action; however, neither
`_make_token_request` nor the token-validation call of `_update_token`
passes `rate_limit_fail`, so both internal token operations run in the
default retrying mode rather than the single-attempt mode. -/
theorem rate_limit_fail_single_attempt (resp : Nat → HResp) (fuel : Nat) :
    make_request_attempts true resp fuel = some ([], resp 0, 1)
    ∧ make_token_request_attempts resp fuel = make_request_attempts false resp fuel
    ∧ update_token_validate_attempts resp fuel = make_request_attempts false resp fuel :=
  ⟨rfl, rfl, rfl⟩

/-- Helper: a run of the retry loop from attempt `i`, where the next `k`
responses all carry a retryable status and the one after them does not,
returns that first non-retryable response after `k + 1` calls, having
slept or refreshed per status on the way. -/
theorem retryLoop_run (resp : Nat → HResp) :
    ∀ (k : Nat) (fuel i : Nat), (∀ j, j < k → retryStatus (resp (i + j))) →
      ¬ retryStatus (resp (i + k)) → k < fuel →
      retryLoop resp fuel i
        = some ((List.range k).map (fun j =>
            if (resp (i + j)).status = 429
            then .sleep ((resp (i + j)).retryAfter.getD 1) else .refreshToken),
            resp (i + k), k + 1) := by
  intro k
  induction k with
  | zero =>
    intro fuel i _ hstop hfuel
    obtain ⟨f, rfl⟩ : ∃ f, fuel = f + 1 := ⟨fuel - 1, by omega⟩
    have h429 : ¬ (resp i).status = 429 := fun hh => hstop (by simpa using Or.inl hh)
    have h419 : ¬ (resp i).status = 419 := fun hh => hstop (by simpa using Or.inr hh)
    simp [retryLoop, h429, h419]
  | succ k ih =>
    intro fuel i hall hstop hfuel
    obtain ⟨f, rfl⟩ : ∃ f, fuel = f + 1 := ⟨fuel - 1, by omega⟩
    have hrec := ih f (i + 1) (fun j hj => by
        have := hall (j + 1) (by omega)
        simpa [Nat.add_assoc, Nat.add_comm 1 j] using this)
      (by
        have : i + 1 + k = i + (k + 1) := by omega
        rw [this]; exact hstop)
      (by omega)
    have hacts : (List.range (k + 1)).map (fun j =>
          if (resp (i + j)).status = 429
          then RetryAction.sleep ((resp (i + j)).retryAfter.getD 1)
          else RetryAction.refreshToken)
        = (if (resp i).status = 429
           then RetryAction.sleep ((resp i).retryAfter.getD 1)
           else RetryAction.refreshToken)
          :: (List.range k).map (fun j =>
            if (resp (i + 1 + j)).status = 429
            then RetryAction.sleep ((resp (i + 1 + j)).retryAfter.getD 1)
            else RetryAction.refreshToken) := by
      rw [List.range_succ_eq_map, List.map_cons, List.map_map]
      simp only [Nat.add_zero]
      congr 1
      apply List.map_congr_left
      intro j hj
      simp only [Function.comp_apply]
      have he : i + Nat.succ j = i + 1 + j := by omega
      rw [he]
    rcases hall 0 (by omega) with h429 | h419
    · simp only [Nat.add_zero] at h429
      simp only [retryLoop, h429, if_pos rfl, hrec, hacts]
      have : i + 1 + k = i + (k + 1) := by omega
      simp [this]
    · simp only [Nat.add_zero] at h419
      by_cases h429 : (resp i).status = 429
      · simp only [retryLoop, h429, if_pos rfl, hrec, hacts]
        have : i + 1 + k = i + (k + 1) := by omega
        simp [this, h429]
      · simp only [retryLoop, h429, if_neg, h419, if_pos rfl, hrec, hacts, if_false]
        have : i + 1 + k = i + (k + 1) := by omega
        simp [this, h429]

/-- Helper: whatever response leaves the retry loop does not carry a
retryable status. -/
theorem retryLoop_out_not_retryStatus (resp : Nat → HResp) :
    ∀ (fuel i : Nat) (acts : List RetryAction) (out : HResp) (n : Nat),
      retryLoop resp fuel i = some (acts, out, n) → ¬ retryStatus out := by
  intro fuel
  induction fuel with
  | zero => intro i acts out n h; simp [retryLoop] at h
  | succ f ih =>
    intro i acts out n h
    by_cases h429 : (resp i).status = 429
    · cases hrec : retryLoop resp f (i + 1) with
      | none => simp [retryLoop, h429, hrec] at h
      | some r =>
        obtain ⟨acts', out', n'⟩ := r
        simp only [retryLoop, h429, hrec, if_pos] at h
        have hout : out' = out := congrArg (fun p => p.2.1) (Option.some.inj h)
        exact hout ▸ ih (i + 1) acts' out' n' hrec
    · by_cases h419 : (resp i).status = 419
      · cases hrec : retryLoop resp f (i + 1) with
        | none => simp [retryLoop, h429, h419, hrec] at h
        | some r =>
          obtain ⟨acts', out', n'⟩ := r
          simp only [retryLoop, h429, h419, hrec, if_pos, if_neg] at h
          have hout : out' = out := congrArg (fun p => p.2.1) (Option.some.inj h)
          exact hout ▸ ih (i + 1) acts' out' n' hrec
      · simp only [retryLoop, h429, h419, if_false] at h
        have hout : resp i = out := congrArg (fun p => p.2.1) (Option.some.inj h)
        rw [← hout]
        intro hc
        rcases hc with hc | hc
        · exact h429 hc
        · exact h419 hc

/-- Helper: while every response carries a retryable status the loop never
returns, whatever the fuel — the retry is unbounded. -/
theorem retryLoop_unbounded (resp : Nat → HResp) (hall : ∀ i, retryStatus (resp i)) :
    ∀ (fuel i : Nat), retryLoop resp fuel i = none := by
  intro fuel
  induction fuel with
  | zero => intro i; simp [retryLoop]
  | succ f ih =>
    intro i
    rcases hall i with h429 | h419
    · simp [retryLoop, h429, ih (i + 1)]
    · by_cases h429 : (resp i).status = 429
      · simp [retryLoop, h429, ih (i + 1)]
      · simp [retryLoop, h429, h419, ih (i + 1)]

/-- C3: with retry enabled (`rate_limit_fail` false), as long as responses
carry status 429 or 419 the engine retries unboundedly — on a 429 it
sleeps for the `Retry-After` duration if present (default 1 second), on a
419 it refreshes the token; the first response with any other status exits
the loop, and the response surfaced by the loop never has status 429 or
419. -/
theorem retry_loop_spec (resp : Nat → HResp) :
    (∀ k, (∀ j, j < k → retryStatus (resp j)) → ¬ retryStatus (resp k) →
      ∀ fuel, k < fuel →
        make_request_attempts false resp fuel
          = some (expectedRetryActions resp k, resp k, k + 1))
    ∧ (∀ fuel acts out n,
        make_request_attempts false resp fuel = some (acts, out, n) → ¬ retryStatus out)
    ∧ ((∀ i, retryStatus (resp i)) → ∀ fuel, make_request_attempts false resp fuel = none) := by
  refine ⟨?_, ?_, ?_⟩
  · intro k hall hstop fuel hfuel
    have h := retryLoop_run resp k fuel 0 (fun j hj => by simpa using hall j hj)
      (by simpa using hstop) hfuel
    simpa [make_request_attempts, expectedRetryActions] using h
  · intro fuel acts out n h
    exact retryLoop_out_not_retryStatus resp fuel 0 acts out n
      (by simpa [make_request_attempts] using h)
  · intro hall fuel
    simpa [make_request_attempts] using retryLoop_unbounded resp hall fuel 0

/-- Witness for C3: two 429 responses (with `Retry-After` 2 then no
header) followed by a 200 make the loop sleep 2 seconds, then 1 second,
and surface the 200 after three attempts. -/
theorem retry_loop_spec_witness :
    make_request_attempts false
        (fun i => if i = 0 then ⟨429, some 2⟩ else if i = 1 then ⟨429, none⟩ else ⟨200, none⟩) 4
      = some (expectedRetryActions
          (fun i => if i = 0 then ⟨429, some 2⟩ else if i = 1 then ⟨429, none⟩ else ⟨200, none⟩) 2,
          ⟨200, none⟩, 3) :=
  (retry_loop_spec
      (fun i => if i = 0 then ⟨429, some 2⟩ else if i = 1 then ⟨429, none⟩ else ⟨200, none⟩)).1
    2 (by decide) (by decide) 4 (by decide)

/-- Helper: overwriting the same key twice keeps only the last value. -/
theorem dictSet_dictSet {κ β : Type} [DecidableEq κ] (k : κ) (v w : β) :
    ∀ l, dictSet k v (dictSet k w l) = dictSet k v l := by
  intro l
  induction l with
  | nil => simp [dictSet]
  | cons hd tl ih =>
    obtain ⟨k', v'⟩ := hd
    by_cases hk : k' = k
    · subst hk
      simp [dictSet]
    · simp [dictSet, hk, ih]

/-- Helper: a params dict reachable from `p0` has its `from`-update equal
to the `from`-update of `p0` itself. -/
theorem paramsReachable_update {p0 p : List (String × PyVal)}
    (h : paramsReachable p0 p) (c : Int) :
    dictSet "from" (.vInt c) p = dictSet "from" (.vInt c) p0 := by
  rcases h with rfl | ⟨k, rfl⟩
  · rfl
  · exact dictSet_dictSet "from" (.vInt c) (.vInt k) p0

/-- Helper: the main iteration invariant.  From any reachable state whose
consumed count is at most the (fixed) declared total, draining with enough
fuel yields exactly `total - current` records, never hits `IndexError`,
ends with `current = total`, and every follow-up fetch it issued used
`from = n` on the activation params for some offset `n < total`. -/
theorem drain_run {α : Type} (fetch : Fetch α) (p0 : List (String × PyVal)) (t : Int)
    (hsane : sanePages fetch p0 t) :
    ∀ (fuel : Nat) (s : CursorState α), s.total = t → (s.current : Int) ≤ t →
      paramsReachable p0 s.params → (t - (s.current : Int)).toNat ≤ fuel →
      (drain fetch fuel s).1.length = (t - (s.current : Int)).toNat
      ∧ ((drain fetch fuel s).2.1.current : Int) = t
      ∧ (drain fetch fuel s).2.1.total = t
      ∧ (∀ q ∈ (drain fetch fuel s).2.2,
          ∃ n : Nat, q = dictSet "from" (.vInt n) p0 ∧ (n : Int) < t) := by
  intro fuel
  induction fuel with
  | zero =>
    intro s ht hle hp hfuel
    refine ⟨by simp [drain]; omega, by simp [drain]; omega, by simp [drain, ht],
      by simp [drain]⟩
  | succ f ih =>
    intro s ht hle hp hfuel
    by_cases hc : (s.current : Int) < s.total
    · have hct : (s.current : Int) < t := ht ▸ hc
      cases hbuf : s.buf with
      | cons d rest =>
        have hstep : nextStep fetch s = .yield d none
            { s with buf := rest, current := s.current + 1 } := by
          simp [nextStep, hc, hbuf]
        have ihs := ih { s with buf := rest, current := s.current + 1 }
          ht (by push_cast; omega) hp (by push_cast; omega)
        have hdr : drain fetch (f + 1) s
            = (d :: (drain fetch f { s with buf := rest, current := s.current + 1 }).1,
               (drain fetch f { s with buf := rest, current := s.current + 1 }).2.1,
               (drain fetch f { s with buf := rest, current := s.current + 1 }).2.2) := by
          simp [drain, hstep]
        rw [hdr]
        refine ⟨?_, ihs.2.1, ihs.2.2.1, ihs.2.2.2⟩
        simp only [List.length_cons, ihs.1]
        push_cast
        omega
      | nil =>
        have hpu : dictSet "from" (.vInt s.current) s.params
            = dictSet "from" (.vInt s.current) p0 := paramsReachable_update hp _
        have hne : (fetch (dictSet "from" (.vInt s.current) s.params)).data ≠ [] := by
          rw [hpu]; exact hsane s.current hct
        cases hdata : (fetch (dictSet "from" (.vInt s.current) s.params)).data with
        | nil => exact absurd hdata hne
        | cons d rest =>
          have hstep : nextStep fetch s = .yield d
              (some (dictSet "from" (.vInt s.current) s.params))
              { s with params := dictSet "from" (.vInt s.current) s.params,
                       buf := rest, current := s.current + 1 } := by
            simp [nextStep, hc, hbuf, hdata]
          have ihs := ih { s with params := dictSet "from" (.vInt s.current) s.params,
                                  buf := rest, current := s.current + 1 }
            ht (by push_cast; omega) (Or.inr ⟨s.current, hpu⟩) (by push_cast; omega)
          have hdr : drain fetch (f + 1) s
              = (d :: (drain fetch f { s with
                    params := dictSet "from" (.vInt s.current) s.params,
                    buf := rest, current := s.current + 1 }).1,
                 (drain fetch f { s with
                    params := dictSet "from" (.vInt s.current) s.params,
                    buf := rest, current := s.current + 1 }).2.1,
                 dictSet "from" (.vInt s.current) s.params
                   :: (drain fetch f { s with
                    params := dictSet "from" (.vInt s.current) s.params,
                    buf := rest, current := s.current + 1 }).2.2) := by
            simp [drain, hstep]
          rw [hdr]
          refine ⟨?_, ihs.2.1, ihs.2.2.1, ?_⟩
          · simp only [List.length_cons, ihs.1]
            push_cast
            omega
          · intro q hq
            rcases List.mem_cons.mp hq with hq | hq
            · exact ⟨s.current, by rw [hq]; exact hpu, hct⟩
            · exact ihs.2.2.2 q hq
    · have hstep : nextStep fetch s = .stop := by simp [nextStep, hc]
      have hdr : drain fetch (f + 1) s = ([], s, []) := by simp [drain, hstep]
      rw [hdr]
      have hge : t ≤ (s.current : Int) := by rw [← ht]; omega
      refine ⟨by simp; omega, by simp; omega, ht, by simp⟩

/-- Helper: `__next__` raises `StopIteration` exactly when the consumed
count has reached (or passed) the declared total. -/
theorem nextStep_stop_iff {α : Type} (fetch : Fetch α) (s : CursorState α) :
    nextStep fetch s = .stop ↔ s.total ≤ (s.current : Int) := by
  constructor
  · intro h
    by_contra hlt
    push_neg at hlt
    cases hbuf : s.buf with
    | cons d rest => simp [nextStep, hlt, hbuf] at h
    | nil =>
      cases hdata : (fetch (dictSet "from" (.vInt s.current) s.params)).data with
      | nil => simp [nextStep, hlt, hbuf, hdata] at h
      | cons d rest => simp [nextStep, hlt, hbuf, hdata] at h
  · intro h
    have : ¬ (s.current : Int) < s.total := by omega
    simp [nextStep, this]

/-- C1: a cursor activated on a first page, iterated against a server that
honours pagination (every follow-up fetch below the declared nonnegative
total returns a non-empty page), yields exactly `total` records, where
`total` is `int(info.total)` if coercible and the first page's length
otherwise; the run ends with `current = total`, `StopIteration` occurs
exactly when `current` has reached `total`, and every follow-up fetch was
issued with `params['from']` set to the consumed count at that moment (an
offset below `total`). -/
theorem iteration_yields_total {α : Type} (ep : String) (p0 : List (String × PyVal))
    (r0 : RespBody α) (fetch : Fetch α)
    (hsane : sanePages fetch p0 (computeTotal r0))
    (htot : 0 ≤ computeTotal r0)
    (fuel : Nat) (hfuel : (computeTotal r0).toNat ≤ fuel) :
    ((drain fetch fuel (activate ep p0 r0)).1.length : Int) = computeTotal r0
    ∧ ((drain fetch fuel (activate ep p0 r0)).2.1.current : Int) = computeTotal r0
    ∧ nextStep fetch (drain fetch fuel (activate ep p0 r0)).2.1 = .stop
    ∧ (∀ s : CursorState α, nextStep fetch s = .stop ↔ s.total ≤ (s.current : Int))
    ∧ (∀ q ∈ (drain fetch fuel (activate ep p0 r0)).2.2,
        ∃ n : Nat, q = dictSet "from" (.vInt n) p0 ∧ (n : Int) < computeTotal r0) := by
  have hrun := drain_run fetch p0 (computeTotal r0) hsane fuel (activate ep p0 r0)
    rfl (by simpa [activate] using htot) (Or.inl rfl)
    (by simpa [activate] using hfuel)
  refine ⟨?_, hrun.2.1, ?_, nextStep_stop_iff fetch, hrun.2.2.2⟩
  · rw [hrun.1]
    simp [activate]
    omega
  · rw [nextStep_stop_iff]
    rw [hrun.2.1, hrun.2.2.1]

/-- Witness for C1: total 3 declared on a first page of two records; the
third record comes from one follow-up fetch. -/
theorem iteration_yields_total_witness :
    ((drain constFetch 3 (activate "/public/search" [("q", PyVal.vStr "braf")]
        (⟨some (.vInt 3), [10, 11]⟩ : RespBody Nat))).1.length : Int)
      = computeTotal (⟨some (.vInt 3), [10, 11]⟩ : RespBody Nat) :=
  (iteration_yields_total "/public/search" [("q", PyVal.vStr "braf")]
    (⟨some (.vInt 3), [10, 11]⟩ : RespBody Nat) constFetch
    (fun n hn => by simp [constFetch]) (by decide) 3 (by decide)).1

/-- Helper: one cursor operation served a sane response preserves
`current ≤ total`. -/
theorem applyOp_invariant {α : Type} (idx : SchemaIndex) (s : CursorState α)
    (op : CursorOp α) (hs : (s.current : Int) ≤ s.total) (hop : saneOp op) :
    ((applyOp idx s op).current : Int) ≤ (applyOp idx s op).total := by
  cases op with
  | callOp p r => simpa [applyOp, activate] using hop
  | filterOp kw r =>
    by_cases hkw : kw.isEmpty
    · simpa [applyOp, filterStep, hkw] using hs
    · cases hmf : mergeFilters idx s.endpoint s.params kw with
      | mk p err =>
        cases err with
        | none => simp_all [applyOp, filterStep, hkw, hmf, activate, saneOp]
        | some e => simpa [applyOp, filterStep, hkw, hmf] using hs
  | nextOp page =>
    by_cases hc : (s.current : Int) < s.total
    · cases hbuf : s.buf with
      | cons d rest =>
        have hstep : nextStep (fun _ => page) s = .yield d none
            { s with buf := rest, current := s.current + 1 } := by
          simp [nextStep, hc, hbuf]
        simp only [applyOp, hstep]
        push_cast
        omega
      | nil =>
        cases hdata : page.data with
        | nil =>
          have hstep : nextStep (fun _ => page) s
              = .indexError (dictSet "from" (.vInt s.current) s.params)
                { s with params := dictSet "from" (.vInt s.current) s.params,
                         buf := [] } := by
            simp [nextStep, hc, hbuf, hdata]
          simpa [applyOp, hstep] using hs
        | cons d rest =>
          have hstep : nextStep (fun _ => page) s = .yield d
              (some (dictSet "from" (.vInt s.current) s.params))
              { s with params := dictSet "from" (.vInt s.current) s.params,
                       buf := rest, current := s.current + 1 } := by
            simp [nextStep, hc, hbuf, hdata]
          simp only [applyOp, hstep]
          push_cast
          omega
    · have hstep : nextStep (fun _ => page) s = .stop := by simp [nextStep, hc]
      simpa [applyOp, hstep] using hs

/-- Helper: the invariant survives any sequence of sanely served cursor
operations. -/
theorem foldl_applyOp_invariant {α : Type} (idx : SchemaIndex) (ops : List (CursorOp α)) :
    ∀ s : CursorState α, (s.current : Int) ≤ s.total → (∀ op ∈ ops, saneOp op) →
      ((ops.foldl (applyOp idx) s).current : Int) ≤ (ops.foldl (applyOp idx) s).total := by
  induction ops with
  | nil => intro s hs _; simpa using hs
  | cons op rest ih =>
    intro s hs hops
    simp only [List.foldl_cons]
    exact ih (applyOp idx s op)
      (applyOp_invariant idx s op hs (hops op (by simp)))
      (fun o ho => hops o (by simp [ho]))

/-- C2: starting from activation on a response with a nonnegative
(computed) total, and along any sequence of `__call__`, `filter` and
`__next__` operations whose (re-)activations are served responses with
nonnegative totals, the consumed count never exceeds the declared total;
activation resets `current` to 0, a successful non-empty `filter` does so
too (it re-runs `__call__`), and `__next__` increments `current` by one
only under the guard `current < total` (otherwise it stops without
touching the state). -/
theorem current_never_exceeds_total {α : Type} (idx : SchemaIndex) (ep : String)
    (p0 : List (String × PyVal)) (r0 : RespBody α) (ops : List (CursorOp α))
    (h0 : 0 ≤ computeTotal r0) (hops : ∀ op ∈ ops, saneOp op) :
    (((ops.foldl (applyOp idx) (activate ep p0 r0)).current : Int)
        ≤ (ops.foldl (applyOp idx) (activate ep p0 r0)).total)
    ∧ (activate ep p0 r0).current = 0
    ∧ (∀ (s : CursorState α) (kw : List (String × PyVal)) (r : RespBody α)
        (s' : CursorState α), kw ≠ [] → filterStep idx s kw r = (s', none) →
        s'.current = 0)
    ∧ (∀ (fetch : Fetch α) (s : CursorState α) (d : α)
        (f : Option (List (String × PyVal))) (s' : CursorState α),
        nextStep fetch s = .yield d f s' →
        s'.current = s.current + 1 ∧ (s.current : Int) < s.total)
    ∧ (∀ (fetch : Fetch α) (s : CursorState α),
        ¬ (s.current : Int) < s.total → nextStep fetch s = .stop) := by
  refine ⟨foldl_applyOp_invariant idx ops (activate ep p0 r0)
      (by simpa [activate] using h0) hops, rfl, ?_, ?_, ?_⟩
  · intro s kw r s' hkw hfs
    have hne : ¬ kw.isEmpty := by simpa using hkw
    cases hmf : mergeFilters idx s.endpoint s.params kw with
    | mk p err =>
      cases err with
      | none =>
        simp only [filterStep, hne, if_neg, hmf, Bool.false_eq_true] at hfs
        have : activate s.endpoint p r = s' := congrArg Prod.fst hfs
        rw [← this]
        rfl
      | some e =>
        simp only [filterStep, hne, if_neg, hmf, Bool.false_eq_true] at hfs
        exact absurd (congrArg Prod.snd hfs) (by simp)
  · intro fetch s d f s' hstep
    by_cases hc : (s.current : Int) < s.total
    · cases hbuf : s.buf with
      | cons d0 rest =>
        simp only [nextStep, hc, if_pos, hbuf] at hstep
        have := congrArg (fun x => match x with
          | StepResult.yield _ _ st => st.current
          | _ => 0) hstep
        simp at this
        exact ⟨by omega, hc⟩
      | nil =>
        cases hdata : (fetch (dictSet "from" (.vInt s.current) s.params)).data with
        | nil => simp [nextStep, hc, hbuf, hdata] at hstep
        | cons d0 rest =>
          simp only [nextStep, hc, if_pos, hbuf, hdata] at hstep
          have := congrArg (fun x => match x with
            | StepResult.yield _ _ st => st.current
            | _ => 0) hstep
          simp at this
          exact ⟨by omega, hc⟩
    · simp [nextStep, hc] at hstep
  · intro fetch s hc
    simp [nextStep, hc]

/-- Witness for C2: a concrete run — activation with total 2, one next, a
filter re-activation with total 1, two more nexts — keeps
`current ≤ total`. -/
theorem current_never_exceeds_total_witness :
    (([CursorOp.nextOp ⟨none, []⟩,
        CursorOp.filterOp [("size", PyVal.vInt 1)] ⟨some (.vInt 1), [7]⟩,
        CursorOp.nextOp ⟨none, []⟩,
        CursorOp.nextOp ⟨none, [8]⟩].foldl
          (applyOp [("/e", [("get", [("size", "number")])])])
          (activate "/e" [] (⟨some (.vInt 2), [5, 6]⟩ : RespBody Nat))).current : Int)
      ≤ ([CursorOp.nextOp ⟨none, []⟩,
        CursorOp.filterOp [("size", PyVal.vInt 1)] ⟨some (.vInt 1), [7]⟩,
        CursorOp.nextOp ⟨none, []⟩,
        CursorOp.nextOp ⟨none, [8]⟩].foldl
          (applyOp [("/e", [("get", [("size", "number")])])])
          (activate "/e" [] (⟨some (.vInt 2), [5, 6]⟩ : RespBody Nat))).total :=
  (current_never_exceeds_total [("/e", [("get", [("size", "number")])])] "/e" []
    (⟨some (.vInt 2), [5, 6]⟩ : RespBody Nat)
    [CursorOp.nextOp ⟨none, []⟩,
     CursorOp.filterOp [("size", PyVal.vInt 1)] ⟨some (.vInt 1), [7]⟩,
     CursorOp.nextOp ⟨none, []⟩,
     CursorOp.nextOp ⟨none, [8]⟩]
    (by decide) (by decide)).1

/-- Helper: when every filter validates, the merge loop folds the filters
into the params dict and reports no error. -/
theorem mergeFilters_all_valid (idx : SchemaIndex) (ep : String) :
    ∀ (kw p : List (String × PyVal)),
      (∀ kv ∈ kw, validate_parameter idx ep kv.1 kv.2 "get" = .ok ()) →
      mergeFilters idx ep p kw
        = (kw.foldl (fun acc kv => dictSet kv.1 kv.2 acc) p, none) := by
  intro kw
  induction kw with
  | nil => intro p _; simp [mergeFilters]
  | cons kv rest ih =>
    intro p hall
    obtain ⟨k, v⟩ := kv
    have hk := hall (k, v) (by simp)
    simp only [mergeFilters, hk]
    exact ih (dictSet k v p) (fun kv' h' => hall kv' (by simp [h']))

/-- C4: `filter` with no filters is a no-op returning the cursor itself;
with filters that all validate against the stored endpoint (the first
positional argument given at activation), it merges each filter into the
stored params and re-invokes the underlying call from scratch — the
resulting cursor state is exactly an activation on the merged params, so
its buffer is the new page, `current` is 0 and `total` is recomputed.  The
returned state is the cursor itself (`return self`; aliasing is modelled
by returning the updated state). -/
theorem filter_spec {α : Type} (idx : SchemaIndex) (s : CursorState α)
    (kwargs : List (String × PyVal)) (resp : RespBody α) :
    (filterStep idx s [] resp = (s, none))
    ∧ (kwargs ≠ [] →
       (∀ kv ∈ kwargs, validate_parameter idx s.endpoint kv.1 kv.2 "get" = .ok ()) →
       filterStep idx s kwargs resp
         = (activate s.endpoint
              (kwargs.foldl (fun acc kv => dictSet kv.1 kv.2 acc) s.params) resp, none))
    ∧ (kwargs ≠ [] →
       (∀ kv ∈ kwargs, validate_parameter idx s.endpoint kv.1 kv.2 "get" = .ok ()) →
       (filterStep idx s kwargs resp).1.current = 0
       ∧ (filterStep idx s kwargs resp).1.buf = resp.data
       ∧ (filterStep idx s kwargs resp).1.total = computeTotal resp
       ∧ (filterStep idx s kwargs resp).1.params
           = kwargs.foldl (fun acc kv => dictSet kv.1 kv.2 acc) s.params) := by
  have hempty : filterStep idx s [] resp = (s, none) := by simp [filterStep]
  refine ⟨hempty, ?_, ?_⟩
  · intro hkw hall
    have hne : ¬ kwargs.isEmpty := by simpa using hkw
    simp [filterStep, hne, mergeFilters_all_valid idx s.endpoint kwargs s.params hall]
  · intro hkw hall
    have hne : ¬ kwargs.isEmpty := by simpa using hkw
    simp [filterStep, hne, mergeFilters_all_valid idx s.endpoint kwargs s.params hall,
      activate]

/-- Witness for C4: filtering an activated cursor by a validated
`size = 1` merges the filter and re-activates on the new page. -/
theorem filter_spec_witness :
    filterStep [("/e", [("get", [("size", "number")])])]
        (activate "/e" [("q", PyVal.vStr "b")] (⟨some (.vInt 2), [5, 6]⟩ : RespBody Nat))
        [("size", PyVal.vInt 1)] ⟨some (.vInt 1), [7]⟩
      = (activate "/e" [("q", PyVal.vStr "b"), ("size", PyVal.vInt 1)] ⟨some (.vInt 1), [7]⟩,
         none) :=
  ((filter_spec [("/e", [("get", [("size", "number")])])]
      (activate "/e" [("q", PyVal.vStr "b")] (⟨some (.vInt 2), [5, 6]⟩ : RespBody Nat))
      [("size", PyVal.vInt 1)] ⟨some (.vInt 1), [7]⟩).2.1
    (by decide) (by decide)).trans (by decide)

/-- Helper: consuming `n` records and returning the next one (the islice
protocol) returns exactly position `n` of the list a full drain would
yield, for any reachable state under a pagination-honouring server. -/
theorem advanceGet_get? {α : Type} (fetch : Fetch α) (p0 : List (String × PyVal)) (t : Int)
    (hsane : sanePages fetch p0 t) :
    ∀ (n : Nat) (s : CursorState α), s.total = t → (s.current : Int) ≤ t →
      paramsReachable p0 s.params →
      advanceGet fetch n s = .ok ((drain fetch (t - (s.current : Int)).toNat s).1.get? n) := by
  intro n
  induction n with
  | zero =>
    intro s ht hle hp
    by_cases hc : (s.current : Int) < s.total
    · have hct : (s.current : Int) < t := ht ▸ hc
      obtain ⟨m, hm⟩ : ∃ m, (t - (s.current : Int)).toNat = m + 1 :=
        ⟨(t - (s.current : Int) - 1).toNat, by omega⟩
      cases hbuf : s.buf with
      | cons d rest =>
        have hstep : nextStep fetch s = .yield d none
            { s with buf := rest, current := s.current + 1 } := by
          simp [nextStep, hc, hbuf]
        rw [hm]
        simp [advanceGet, drain, hstep]
      | nil =>
        have hpu : dictSet "from" (.vInt s.current) s.params
            = dictSet "from" (.vInt s.current) p0 := paramsReachable_update hp _
        have hne : (fetch (dictSet "from" (.vInt s.current) s.params)).data ≠ [] := by
          rw [hpu]; exact hsane s.current hct
        cases hdata : (fetch (dictSet "from" (.vInt s.current) s.params)).data with
        | nil => exact absurd hdata hne
        | cons d rest =>
          have hstep : nextStep fetch s = .yield d
              (some (dictSet "from" (.vInt s.current) s.params))
              { s with params := dictSet "from" (.vInt s.current) s.params,
                       buf := rest, current := s.current + 1 } := by
            simp [nextStep, hc, hbuf, hdata]
          rw [hm]
          simp [advanceGet, drain, hstep]
    · have hstep : nextStep fetch s = .stop := by simp [nextStep, hc]
      have hz : (t - (s.current : Int)).toNat = 0 := by rw [← ht]; omega
      rw [hz]
      simp [advanceGet, drain, hstep]
  | succ n ih =>
    intro s ht hle hp
    by_cases hc : (s.current : Int) < s.total
    · have hct : (s.current : Int) < t := ht ▸ hc
      obtain ⟨m, hm⟩ : ∃ m, (t - (s.current : Int)).toNat = m + 1 :=
        ⟨(t - (s.current : Int) - 1).toNat, by omega⟩
      cases hbuf : s.buf with
      | cons d rest =>
        have hstep : nextStep fetch s = .yield d none
            { s with buf := rest, current := s.current + 1 } := by
          simp [nextStep, hc, hbuf]
        have ihs := ih { s with buf := rest, current := s.current + 1 }
          ht (by push_cast; omega) hp
        have hm2 : (t - (((s.current + 1 : Nat)) : Int)).toNat = m := by push_cast; omega
        rw [hm2] at ihs
        rw [hm]
        simpa [advanceGet, drain, hstep] using ihs
      | nil =>
        have hpu : dictSet "from" (.vInt s.current) s.params
            = dictSet "from" (.vInt s.current) p0 := paramsReachable_update hp _
        have hne : (fetch (dictSet "from" (.vInt s.current) s.params)).data ≠ [] := by
          rw [hpu]; exact hsane s.current hct
        cases hdata : (fetch (dictSet "from" (.vInt s.current) s.params)).data with
        | nil => exact absurd hdata hne
        | cons d rest =>
          have hstep : nextStep fetch s = .yield d
              (some (dictSet "from" (.vInt s.current) s.params))
              { s with params := dictSet "from" (.vInt s.current) s.params,
                       buf := rest, current := s.current + 1 } := by
            simp [nextStep, hc, hbuf, hdata]
          have ihs := ih { s with params := dictSet "from" (.vInt s.current) s.params,
                                  buf := rest, current := s.current + 1 }
            ht (by push_cast; omega) (Or.inr ⟨s.current, hpu⟩)
          have hm2 : (t - (((s.current + 1 : Nat)) : Int)).toNat = m := by push_cast; omega
          rw [hm2] at ihs
          rw [hm]
          simpa [advanceGet, drain, hstep] using ihs
    · have hstep : nextStep fetch s = .stop := by simp [nextStep, hc]
      have hz : (t - (s.current : Int)).toNat = 0 := by rw [← ht]; omega
      rw [hz]
      simp [advanceGet, drain, hstep]

/-- C10 (counterexample): the claim quantifies over every integer index,
but `islice` rejects negative indices: on an active cursor with two
remaining records, `cursor[-1]` raises `ValueError` instead of returning a
record or `None`. -/
theorem getitem_negative_cex :
    getItem emptyFetch ⟨"/e", [], [10, 20], 0, 2⟩ (-1) = .error .valueError
    ∧ (Except.error PyError.valueError : Except PyError (Option Nat)) ≠ .ok none
    ∧ (Except.error PyError.valueError : Except PyError (Option Nat)) ≠ .ok (some 10) := by
  decide

/-- C10 (amended): on an active cursor served by a pagination-honouring
server, integer index access with a nonnegative `x` returns the `x`-th
not-yet-consumed record if one exists and `None` otherwise — position `x`
of the remaining-iteration list, whose length is `total - current` — never
an out-of-range error; a negative `x`, however, raises `ValueError`. -/
theorem getitem_spec {α : Type} (fetch : Fetch α) (p0 : List (String × PyVal))
    (s : CursorState α) (x : Int)
    (hsane : sanePages fetch p0 s.total)
    (hcur : (s.current : Int) ≤ s.total)
    (hp : paramsReachable p0 s.params)
    (hx : 0 ≤ x) :
    getItem fetch s x = .ok ((remainingList fetch s).get? x.toNat)
    ∧ ((remainingList fetch s).length : Int) = s.total - (s.current : Int)
    ∧ (s.total - (s.current : Int) ≤ x → (remainingList fetch s).get? x.toNat = none) := by
  have hadv := advanceGet_get? fetch p0 s.total hsane x.toNat s rfl hcur hp
  have hlen := (drain_run fetch p0 s.total hsane (s.total - (s.current : Int)).toNat s
    rfl hcur hp (le_refl _)).1
  refine ⟨?_, ?_, ?_⟩
  · rw [getItem, if_neg (by omega)]
    exact hadv
  · rw [remainingList, hlen]
    omega
  · intro hge
    apply List.get?_eq_none.mpr
    rw [remainingList, hlen]
    omega

/-- Witness for C10: with one record left in the buffer and one more page
on the server, index 1 is the record a follow-up fetch yields, and index 5
is `None`. -/
theorem getitem_spec_witness :
    getItem constFetch ⟨"/e", [("q", PyVal.vStr "b")], [4], 1, 3⟩ 1
      = .ok ((remainingList constFetch ⟨"/e", [("q", PyVal.vStr "b")], [4], 1, 3⟩).get? 1)
    ∧ getItem constFetch ⟨"/e", [("q", PyVal.vStr "b")], [4], 1, 3⟩ 5 = .ok none :=
  ⟨(getitem_spec constFetch [("q", PyVal.vStr "b")]
      ⟨"/e", [("q", PyVal.vStr "b")], [4], 1, 3⟩ 1
      (fun n hn => by simp [constFetch]) (by decide) (Or.inl rfl) (by decide)).1,
   ((getitem_spec constFetch [("q", PyVal.vStr "b")]
      ⟨"/e", [("q", PyVal.vStr "b")], [4], 1, 3⟩ 5
      (fun n hn => by simp [constFetch]) (by decide) (Or.inl rfl) (by decide)).1).trans
    (by rw [(getitem_spec constFetch [("q", PyVal.vStr "b")]
        ⟨"/e", [("q", PyVal.vStr "b")], [4], 1, 3⟩ 5
        (fun n hn => by simp [constFetch]) (by decide) (Or.inl rfl) (by decide)).2.2
        (by decide)])⟩

/-- Helper: equal code points mean equal characters. -/
theorem char_toNat_inj {a b : Char} (h : a.toNat = b.toNat) : a = b := by
  apply Char.eq_of_val_eq
  have hv : a.val.toNat = b.val.toNat := h
  exact UInt32.toNat.inj hv

/-- Helper: lexicographic comparison is total. -/
theorem lexLe_total : ∀ as bs : List Char, lexLe as bs = true ∨ lexLe bs as = true := by
  intro as
  induction as with
  | nil => intro bs; left; simp [lexLe]
  | cons a as ih =>
    intro bs
    cases bs with
    | nil => right; simp [lexLe]
    | cons b bs =>
      by_cases h1 : a.toNat < b.toNat
      · left; simp [lexLe, h1]
      · by_cases h2 : b.toNat < a.toNat
        · right; simp [lexLe, h2]
        · rcases ih bs with h | h
          · left; simp [lexLe, h1, h2, h]
          · right; simp [lexLe, h1, h2, h]

/-- Helper: lexicographic comparison is transitive. -/
theorem lexLe_trans : ∀ as bs cs : List Char,
    lexLe as bs = true → lexLe bs cs = true → lexLe as cs = true := by
  intro as
  induction as with
  | nil => intro bs cs _ _; simp [lexLe]
  | cons a as ih =>
    intro bs cs hab hbc
    cases bs with
    | nil => simp [lexLe] at hab
    | cons b bs =>
      cases cs with
      | nil => simp [lexLe] at hbc
      | cons c cs =>
        simp only [lexLe] at hab hbc ⊢
        by_cases h1 : a.toNat < b.toNat
        · by_cases h2 : b.toNat < c.toNat
          · rw [if_pos (by omega)]
          · simp only [h2, if_false] at hbc
            by_cases h3 : c.toNat < b.toNat
            · simp [h3] at hbc
            · rw [if_pos (by omega)]
        · simp only [h1, if_false] at hab
          by_cases h1' : b.toNat < a.toNat
          · simp [h1'] at hab
          · simp only [h1', if_false] at hab
            by_cases h2 : b.toNat < c.toNat
            · rw [if_pos (by omega)]
            · simp only [h2, if_false] at hbc
              by_cases h3 : c.toNat < b.toNat
              · simp [h3] at hbc
              · rw [if_neg h3] at hbc
                rw [if_neg (by omega), if_neg (by omega)]
                exact ih bs cs hab hbc

/-- Helper: lexicographic comparison is antisymmetric. -/
theorem lexLe_antisymm : ∀ as bs : List Char,
    lexLe as bs = true → lexLe bs as = true → as = bs := by
  intro as
  induction as with
  | nil =>
    intro bs _ hba
    cases bs with
    | nil => rfl
    | cons b bs => simp [lexLe] at hba
  | cons a as ih =>
    intro bs hab hba
    cases bs with
    | nil => simp [lexLe] at hab
    | cons b bs =>
      simp only [lexLe] at hab hba
      by_cases h1 : a.toNat < b.toNat
      · rw [if_neg (by omega), if_pos (by omega)] at hba
        exact absurd hba (by simp)
      · by_cases h2 : b.toNat < a.toNat
        · rw [if_neg (by omega), if_pos (by omega)] at hab
          exact absurd hab (by simp)
        · rw [if_neg h1, if_neg h2] at hab
          rw [if_neg h2, if_neg h1] at hba
          rw [char_toNat_inj (by omega : a.toNat = b.toNat), ih bs hab hba]

/-- Helper: string comparison is antisymmetric. -/
theorem strLeB_antisymm {a b : String} (hab : strLeB a b = true) (hba : strLeB b a = true) :
    a = b := by
  cases a with
  | mk da =>
    cases b with
    | mk db =>
      have : da = db := lexLe_antisymm da db hab hba
      simp [this]

instance : IsTotal (String × PyVal) (fun p q : String × PyVal => strLeB p.1 q.1 = true) :=
  ⟨fun p q => lexLe_total p.1.data q.1.data⟩

instance : IsTrans (String × PyVal) (fun p q : String × PyVal => strLeB p.1 q.1 = true) :=
  ⟨fun p q r => lexLe_trans p.1.data q.1.data r.1.data⟩

instance : IsTotal String (fun a b : String => strLeB a b = true) :=
  ⟨fun a b => lexLe_total a.data b.data⟩

instance : IsTrans String (fun a b : String => strLeB a b = true) :=
  ⟨fun a b c => lexLe_trans a.data b.data c.data⟩

instance : IsAntisymm String (fun a b : String => strLeB a b = true) :=
  ⟨fun _ _ => strLeB_antisymm⟩

/-- C8: params canonicalization is deterministic on the logical parameter
set.  Two params dicts holding the same bindings in any order (dict keys
being pairwise distinct) canonicalize to the identical sorted item
sequence, and two non-dict params sequences with the same values in any
order canonicalize to the identical sorted sequence — so an underlying
response cache sees identical cache keys regardless of call-site
ordering. -/
theorem params_canonicalization_deterministic :
    (∀ l1 l2 : List (String × PyVal), l1.Perm l2 → (l1.map Prod.fst).Nodup →
      canonicalizeParams (.dict l1) = canonicalizeParams (.dict l2))
    ∧ (∀ m1 m2 : List String, m1.Perm m2 →
      canonicalizeParams (.seqOf m1) = canonicalizeParams (.seqOf m2)) := by
  constructor
  · intro l1 l2 hperm hnd
    have key : canonicalizeDict l1 = canonicalizeDict l2 := by
      have hs1 : List.Sorted (fun p q : String × PyVal => strLeB p.1 q.1 = true)
          (canonicalizeDict l1) :=
        List.sorted_insertionSort (fun p q : String × PyVal => strLeB p.1 q.1 = true) l1
      have hs2 : List.Sorted (fun p q : String × PyVal => strLeB p.1 q.1 = true)
          (canonicalizeDict l2) :=
        List.sorted_insertionSort (fun p q : String × PyVal => strLeB p.1 q.1 = true) l2
      have hp : (canonicalizeDict l1).Perm (canonicalizeDict l2) :=
        (List.perm_insertionSort _ l1).trans
          (hperm.trans (List.perm_insertionSort _ l2).symm)
      have hnd1 : ((canonicalizeDict l1).map Prod.fst).Nodup :=
        hnd.perm ((List.perm_insertionSort _ l1).map Prod.fst).symm
      have hnd2 : ((canonicalizeDict l2).map Prod.fst).Nodup :=
        (hnd.perm (hperm.map Prod.fst)).perm
          ((List.perm_insertionSort _ l2).map Prod.fst).symm
      have hpne1 : (canonicalizeDict l1).Pairwise (fun p q => p.1 ≠ q.1) :=
        List.pairwise_map.mp hnd1
      have hpne2 : (canonicalizeDict l2).Pairwise (fun p q => p.1 ≠ q.1) :=
        List.pairwise_map.mp hnd2
      haveI : IsAntisymm (String × PyVal)
          (fun p q : String × PyVal => strLeB p.1 q.1 = true ∧ p.1 ≠ q.1) :=
        ⟨fun p q hpq hqp => absurd (strLeB_antisymm hpq.1 hqp.1) hpq.2⟩
      exact List.eq_of_perm_of_sorted
        (r := fun p q : String × PyVal => strLeB p.1 q.1 = true ∧ p.1 ≠ q.1)
        hp (hs1.and hpne1) (hs2.and hpne2)
    simp [canonicalizeParams, key]
  · intro m1 m2 hperm
    have key : canonicalizeSeq m1 = canonicalizeSeq m2 := by
      have hs1 : List.Sorted (fun a b : String => strLeB a b = true) (canonicalizeSeq m1) :=
        List.sorted_insertionSort (fun a b : String => strLeB a b = true) m1
      have hs2 : List.Sorted (fun a b : String => strLeB a b = true) (canonicalizeSeq m2) :=
        List.sorted_insertionSort (fun a b : String => strLeB a b = true) m2
      have hp : (canonicalizeSeq m1).Perm (canonicalizeSeq m2) :=
        (List.perm_insertionSort _ m1).trans
          (hperm.trans (List.perm_insertionSort _ m2).symm)
      exact List.eq_of_perm_of_sorted hp hs1 hs2
    simp [canonicalizeParams, key]

/-- Witness for C8: the same two bindings given in either order produce
the identical canonical sequence, and likewise for a plain sequence. -/
theorem params_canonicalization_deterministic_witness :
    canonicalizeParams (.dict [("size", PyVal.vInt 10), ("q", PyVal.vStr "braf")])
      = canonicalizeParams (.dict [("q", PyVal.vStr "braf"), ("size", PyVal.vInt 10)])
    ∧ canonicalizeParams (.seqOf ["b", "a"]) = canonicalizeParams (.seqOf ["a", "b"]) :=
  ⟨params_canonicalization_deterministic.1
      [("size", PyVal.vInt 10), ("q", PyVal.vStr "braf")]
      [("q", PyVal.vStr "braf"), ("size", PyVal.vInt 10)]
      (List.Perm.swap _ _ _) (by decide),
   params_canonicalization_deterministic.2 ["b", "a"] ["a", "b"] (List.Perm.swap _ _ _)⟩
